import Mathlib

/-!
Verification of the flight-schedule parsing and matrix-building pipeline of
src/streamlit_app.py against its natural-language specification.

The shallow embedding below translates the pure computational core of the
source file into Lean definitions:

- Python strings are Lean `String`; `str.strip`, `str.upper`, `str.lower`
  are modelled character-wise over their ASCII behaviour, which is what the
  program exercises (PDF cell text and the literal tokens "PAX", "Flight",
  weekday names, time strings).
- The regex `DAY_PATTERN` (streamlit_app.py lines 38-40) is embedded as a
  deterministic character-list matcher `matchDayHeader`; greedy matching
  with backtracking coincides with maximal-munch here because every `\s+`
  and `\d` group is followed by a literal that can start with neither a
  space nor a digit.
- `datetime.date(2026, 2, day)` (line 107) is embedded as `mkDate2026Feb`,
  which fails (Python: raises ValueError) outside 1..28 — February 2026 has
  28 days.  Since `DAY_PATTERN` fixes month and year, a date is represented
  by its day number.
- pdfplumber table geometry (page width, bounding boxes, the float division
  in `col_index_from_xc`, lines 67-97) is an external collaborator supplying
  each table with a resolved column slot 0..6 and its cell grid; a `Table`
  here carries that resolved slot and the extracted rows, in traversal
  order (pages in order, tables per page sorted by top y).  No claim under
  verification concerns the floating-point geometry itself.
- pandas DataFrame operations (lines 159-248) act on explicit lists of
  records; `df.replace(\x7b"": None\x7d)` becomes `Option String` fields,
  `pivot_table(..., aggfunc="first")` becomes first-match cell selection
  over the traversal-ordered subset, grouping keys containing a null being
  dropped as pandas groupby does.
-/

set_option maxRecDepth 10000

/-- Decidable equality of `Except` results, so that concrete runs of the
embedded parser can be evaluated inside proofs. -/
instance {ε α : Type} [DecidableEq ε] [DecidableEq α] :
    DecidableEq (Except ε α) := fun x y =>
  match x, y with
  | .error e, .error f =>
    if h : e = f then .isTrue (by rw [h])
    else .isFalse (fun hh => by cases hh; exact h rfl)
  | .ok a, .ok b =>
    if h : a = b then .isTrue (by rw [h])
    else .isFalse (fun hh => by cases hh; exact h rfl)
  | .error _, .ok _ => .isFalse (fun hh => by cases hh)
  | .ok _, .error _ => .isFalse (fun hh => by cases hh)

namespace Aeroporto

/-! ## Python string primitives (ASCII behaviour) -/

/-- Whitespace recognized by Python `str.strip` / `\s`, restricted to ASCII:
space, tab, newline, carriage return, vertical tab, form feed. -/
def isPySpace (c : Char) : Bool :=
  c = ' ' || c = '\t' || c = '\n' || c = '\r' || c.toNat = 11 || c.toNat = 12

/-- Strip leading and trailing whitespace from a character list. -/
def trimChars (cs : List Char) : List Char :=
  ((cs.dropWhile isPySpace).reverse.dropWhile isPySpace).reverse

/-- Python `str.strip()`. -/
def pyStrip (s : String) : String := ⟨trimChars s.data⟩

/-- Python `str.upper()` (ASCII letters). -/
def pyWordUpper (s : String) : String := ⟨s.data.map Char.toUpper⟩

/-- Python `str.lower()` (ASCII letters). -/
def pyWordLower (s : String) : String := ⟨s.data.map Char.toLower⟩

/-! ## DAY_PATTERN (streamlit_app.py lines 38-40)

`re.compile(r"^(Sun|Mon|Tue|Wed|Thu|Fri|Sat)\s+(\d\x7b1,2\x7d)\s+Feb\s+2026$")`,
used via `.match` on the stripped first cell.  Note: the pattern is compiled
WITHOUT `re.IGNORECASE`. -/

/-- The alternation of group 1 of DAY_PATTERN, in source order. -/
def WEEKDAY_TOKENS : List String :=
  ["Sun", "Mon", "Tue", "Wed", "Thu", "Fri", "Sat"]

/-- Consume an exact literal from the front of the input, returning the
remainder on success. -/
def consumeLit : List Char → List Char → Option (List Char)
  | [], cs => some cs
  | _ :: _, [] => none
  | p :: ps, c :: cs => if c = p then consumeLit ps cs else none

/-- Consume `\s+`: at least one whitespace character, maximal munch. -/
def consumeSpaces1 : List Char → Option (List Char)
  | [] => none
  | c :: cs => if isPySpace c then some (cs.dropWhile isPySpace) else none

/-- Numeric value of a digit run, as Python `int` reads it. -/
def digitsVal (ds : List Char) : Nat :=
  ds.foldl (fun n c => 10 * n + (c.toNat - 48)) 0

/-- Match `\s+(\d\x7b1,2\x7d)\s+Feb\s+2026$` after the weekday token.  A
maximal digit run of length one or two is exactly what the backtracking
regex accepts, because the character after the day group must be
whitespace. -/
def matchAfterWeekday (cs : List Char) : Option Nat :=
  match consumeSpaces1 cs with
  | none => none
  | some cs1 =>
    let ds := cs1.takeWhile Char.isDigit
    let cs2 := cs1.dropWhile Char.isDigit
    if ds.length = 1 ∨ ds.length = 2 then
      match consumeSpaces1 cs2 with
      | none => none
      | some cs3 =>
        match consumeLit ['F', 'e', 'b'] cs3 with
        | none => none
        | some cs4 =>
          match consumeSpaces1 cs4 with
          | none => none
          | some cs5 =>
            match consumeLit ['2', '0', '2', '6'] cs5 with
            | some [] => some (digitsVal ds)
            | _ => none
    else none

/-- Embedding of `DAY_PATTERN.match s`: on success returns (group 1 weekday token,
group 2 day number as Python `int(...)` reads it).  At most one weekday
token can head a given string, so trying the alternation in order and
taking the first hit is the regex semantics. -/
def matchDayHeader (s : String) : Option (String × Nat) :=
  (WEEKDAY_TOKENS.filterMap (fun w =>
    match consumeLit w.data s.data with
    | some rest => (matchAfterWeekday rest).map (fun d => (w, d))
    | none => none)).head?

/-- Embedding of `datetime.date(2026, 2, day)` (line 107): February 2026 has 28 days
(2026 is not a leap year); any other day raises
`ValueError: day is out of range for month`. -/
def mkDate2026Feb (day : Nat) : Except String Nat :=
  if 1 ≤ day ∧ day ≤ 28 then .ok day
  else .error "ValueError: day is out of range for month"

/-! ## Table traversal (parse_pdf_to_flights_df, lines 47-157)

A `Table` is one pdfplumber table block in traversal order, carrying the
column slot resolved from its horizontal center (`col_index_from_xc`) and
its extracted cell grid `t.extract()` (cells are `Optional[str]`). -/

structure Table where
  col : Fin 7
  rows : List (List (Option String))
deriving DecidableEq

/-- One raw record appended at lines 146-157, before any pandas
normalization.  `Type` is a reserved word in Lean, so the `Type` column is
the field `type`. -/
structure RawRow where
  Date : Nat
  Weekday : String
  Flight : String
  Route : String
  AD : String
  type : String
  ETA : String
  ETD : String
deriving DecidableEq

/-- Per-column parsing state (lines 81-82): `current_date_by_col` and
`current_weekday_by_col`, each a 7-slot map initialized to `None`. -/
structure ParseState where
  currentDateByCol : Fin 7 → Option Nat
  currentWeekdayByCol : Fin 7 → Option String

/-- Dictionary assignment `d[col] = v` on a 7-slot map. -/
def updCol {β : Type} (f : Fin 7 → β) (i : Fin 7) (v : β) : Fin 7 → β :=
  fun j => if j = i then v else f j

/-- Initial state: every slot unbound. -/
def initState : ParseState := ⟨fun _ => none, fun _ => none⟩

/-- The `first_cell` of a table (lines 99-100): the stripped first cell of the
first row, with `None` cells and missing cells read as the empty string. -/
def firstCellOf (t : Table) : String :=
  match t.rows.head? with
  | none => ""
  | some firstRow =>
    match firstRow.head? with
    | none => ""
    | some c => pyStrip (c.getD "")

/-- Positional cell access of the row loop (lines 136-141):
`(row[i] or "").strip() if len(row) > i else ""`. -/
def cellStr (row : List (Option String)) (i : Nat) : String :=
  match row[i]? with
  | none => ""
  | some c => pyStrip (c.getD "")

/-- The six positionally-consumed fields of one data row. -/
structure RawFields where
  flight : String
  route : String
  ad : String
  typ : String
  eta : String
  etd : String
deriving DecidableEq

/-- One iteration of the row loop (lines 132-144): skip the row when it is
empty or its first cell is falsy (`None` or `""`), strip the first six
cells positionally, and skip again when the stripped flight is empty. -/
def extractRow (row : List (Option String)) : Option RawFields :=
  match row with
  | [] => none
  | c0 :: _ =>
    match c0 with
    | none => none
    | some s0 =>
      if s0 = "" then none
      else
        let flight := pyStrip s0
        if flight = "" then none
        else some ⟨flight, cellStr row 1, cellStr row 2, cellStr row 3,
                   cellStr row 4, cellStr row 5⟩

/-- The rows appended for one table once its date and weekday are known
(lines 132-157). -/
def extractRows (rows : List (List (Option String))) (d : Nat) (w : String) :
    List RawRow :=
  rows.filterMap (fun row => (extractRow row).map (fun f =>
    { Date := d, Weekday := w, Flight := f.flight, Route := f.route,
      AD := f.ad, type := f.typ, ETA := f.eta, ETD := f.etd }))

/-- Lines 126-132: re-read the slot state, skip the table if the slot is
still unbound, otherwise append the extracted rows. -/
def emitRows (st : ParseState) (col : Fin 7) (recs : List RawRow)
    (rows : List (List (Option String))) (startIdx : Nat) : List RawRow :=
  match st.currentDateByCol col, st.currentWeekdayByCol col with
  | some d, some w => recs ++ extractRows (rows.drop startIdx) d w
  | _, _ => recs

/-- The body of the per-table loop (lines 90-157).  A matching day header
binds the slot and starts data at row 2; otherwise an unbound slot skips
the table, a repeated "Flight" title row starts data at row 1, and any
other continuation starts at row 0.  The Python `date` constructor can
raise, which aborts the traversal. -/
def stepTable (st : ParseState) (recs : List RawRow) (t : Table) :
    Except String (ParseState × List RawRow) :=
  if t.rows.isEmpty then .ok (st, recs)
  else
    match matchDayHeader (firstCellOf t) with
    | some (weekday, dayNum) =>
      match mkDate2026Feb dayNum with
      | .error e => .error e
      | .ok curDate =>
        .ok (⟨updCol st.currentDateByCol t.col (some curDate),
              updCol st.currentWeekdayByCol t.col (some weekday)⟩,
             emitRows
               ⟨updCol st.currentDateByCol t.col (some curDate),
                updCol st.currentWeekdayByCol t.col (some weekday)⟩
               t.col recs t.rows 2)
    | none =>
      match st.currentDateByCol t.col, st.currentWeekdayByCol t.col with
      | some _, some _ =>
        .ok (st, emitRows st t.col recs t.rows
          (if pyWordLower (firstCellOf t) = "flight" then 1 else 0))
      | _, _ => .ok (st, recs)

/-- The whole traversal over all tables of all pages, in order. -/
def runTables (st : ParseState) (recs : List RawRow) :
    List Table → Except String (ParseState × List RawRow)
  | [] => .ok (st, recs)
  | t :: ts =>
    match stepTable st recs t with
    | .error e => .error e
    | .ok (st', recs') => runTables st' recs' ts

/-- The rows a header-less table contributes: nothing when its slot is
unbound, otherwise its data rows (starting at 1 after a repeated "Flight"
title row, else at 0) attributed to the slot's bound date and weekday.
This is the continuation behaviour the specification ascribes to the
ContinuationTracker, stated as a function of the slot state. -/
def contRows (st : ParseState) (t : Table) : List RawRow :=
  if t.rows.isEmpty then []
  else
    match st.currentDateByCol t.col, st.currentWeekdayByCol t.col with
    | some d, some w =>
      extractRows
        (t.rows.drop (if pyWordLower (firstCellOf t) = "flight" then 1 else 0))
        d w
    | _, _ => []

/-! ## Normalization and PAX filter (lines 159-176) -/

/-- Embedding of `df.replace(\x7b"": None\x7d)`: an empty string becomes null. -/
def blankToNone (s : String) : Option String :=
  if s = "" then none else some s

/-- Column normalization (lines 167-170): upper-case and strip `Type` and
`AD`, strip `ETA` and `ETD`. -/
def normalizeRow (r : RawRow) : RawRow :=
  { r with type := pyStrip (pyWordUpper r.type),
           AD := pyStrip (pyWordUpper r.AD),
           ETA := pyStrip r.ETA,
           ETD := pyStrip r.ETD }

/-- One row of the returned DataFrame: every string column has had `""`
replaced by null (line 174).  `Date` is the `datetime.date` object. -/
structure FlightRecord where
  Date : Nat
  Weekday : Option String
  Flight : Option String
  Route : Option String
  AD : Option String
  type : Option String
  ETA : Option String
  ETD : Option String
deriving DecidableEq

/-- Line 174: `df.replace(\x7b"": None\x7d, inplace=True)` applied to one row. -/
def replaceBlank (r : RawRow) : FlightRecord :=
  { Date := r.Date, Weekday := blankToNone r.Weekday,
    Flight := blankToNone r.Flight, Route := blankToNone r.Route,
    AD := blankToNone r.AD, type := blankToNone r.type,
    ETA := blankToNone r.ETA, ETD := blankToNone r.ETD }

/-- Lines 164-176: normalize, keep only `Type == "PAX"`, then replace
blanks with nulls.  (When `records` is empty the source returns an empty
DataFrame with the same columns, which is this same empty list.) -/
def finalizeRecords (recs : List RawRow) : List FlightRecord :=
  (((recs.map normalizeRow).filter (fun r => decide (r.type = "PAX"))).map
    replaceBlank)

/-- The function `parse_pdf_to_flights_df` (lines 47-176) on the traversal-ordered
table list supplied by pdfplumber. -/
def parse_pdf_to_flights_df (ts : List Table) :
    Except String (List FlightRecord) :=
  match runTables initState [] ts with
  | .error e => .error e
  | .ok (_, recs) => .ok (finalizeRecords recs)

/-! ## compute_time_value (lines 183-197) -/

/-- Python `str(x)` on an optional string column value: `str(None)` is the
string "None". -/
def pyStrOfOpt : Option String → String
  | none => "None"
  | some s => s

/-- Python `x or None` on an optional string: `None` and `""` are falsy. -/
def pyOrNone : Option String → Option String
  | none => none
  | some s => if s = "" then none else some s

/-- The arrival tuple of line 191. -/
def ARRIVAL_TOKENS : List String := ["A", "ARR", "ARRIVAL"]

/-- The departure tuple of line 194. -/
def DEPARTURE_TOKENS : List String := ["P", "D", "DEP", "DEPT", "DEPARTURE"]

/-- The direction token `ad = str(row.get("AD", "")).upper()` (line 189). -/
def adToken (r : FlightRecord) : String := pyWordUpper (pyStrOfOpt r.AD)

/-- The function `compute_time_value` (lines 183-197): ETA for arrivals, ETD for
departures, otherwise no value. -/
def compute_time_value (r : FlightRecord) : Option String :=
  if adToken r ∈ ARRIVAL_TOKENS then pyOrNone r.ETA
  else if adToken r ∈ DEPARTURE_TOKENS then pyOrNone r.ETD
  else none

/-! ## build_matrix_for_weekday (lines 200-248) -/

/-- Lines 212-217: select the weekday, attach `TimeValue`, and drop the
records whose `TimeValue` is null, preserving traversal order. -/
def matrixSubset (flights : List FlightRecord) (weekday : String) :
    List (FlightRecord × String) :=
  (flights.filter (fun r => decide (r.Weekday = some weekday))).filterMap
    (fun r => (compute_time_value r).map (fun tv => (r, tv)))

/-- The pivot row key (Flight, Route, AD). -/
abbrev FlightKey := String × String × String

/-- The grouping key of `pivot_table(index=["Flight", "Route", "AD"], ...)`;
pandas groupby drops a row whose key contains a null. -/
def keyOf (r : FlightRecord) : Option FlightKey :=
  match r.Flight, r.Route, r.AD with
  | some f, some ro, some ad => some (f, ro, ad)
  | _, _, _ => none

/-- The rows that actually enter the pivot: weekday subset with a non-null
`TimeValue` and a fully non-null grouping key. -/
def subsetForPivot (flights : List FlightRecord) (weekday : String) :
    List (FlightRecord × String) :=
  (matrixSubset flights weekday).filter (fun p => (keyOf p.1).isSome)

/-- Python string comparison `s < t`: lexicographic by code point, a
proper initial segment counting as smaller. -/
def listCharLt : List Char → List Char → Bool
  | [], [] => false
  | [], _ :: _ => true
  | _ :: _, [] => false
  | a :: as, b :: bs =>
    if a.toNat < b.toNat then true
    else if b.toNat < a.toNat then false
    else listCharLt as bs

/-- Python `s < t` on strings. -/
def strLt (a b : String) : Bool := listCharLt a.data b.data

/-- Lexicographic strict order on (Flight, Route, AD), the ascending order
of `sort_values(by=["Flight", "Route", "AD"])` and of the pivot index. -/
def keyLt (a b : FlightKey) : Prop :=
  strLt a.1 b.1 = true ∨
    (a.1 = b.1 ∧ (strLt a.2.1 b.2.1 = true ∨
      (a.2.1 = b.2.1 ∧ strLt a.2.2 b.2.2 = true)))

instance : DecidableRel keyLt := fun a b =>
  inferInstanceAs (Decidable (strLt a.1 b.1 = true ∨
    (a.1 = b.1 ∧ (strLt a.2.1 b.2.1 = true ∨
      (a.2.1 = b.2.1 ∧ strLt a.2.2 b.2.2 = true)))))

/-- Insert into a strictly sorted list, keeping it strictly sorted and
duplicate-free. -/
def insSorted {α : Type} [DecidableEq α] (lt : α → α → Prop)
    [DecidableRel lt] (a : α) : List α → List α
  | [] => [a]
  | b :: l =>
    if lt a b then a :: b :: l
    else if a = b then b :: l
    else b :: insSorted lt a l

/-- The distinct dates of the pivoted subset, ascending: the column order
after `matrix.reindex(sorted(matrix.columns), axis=1)` (line 231). -/
def sortedDatesOf (subset : List (FlightRecord × String)) : List Nat :=
  subset.foldl (fun acc p => insSorted (· < ·) p.1.Date acc) []

/-- The distinct row keys of the pivoted subset, in ascending lexicographic
order: the row order after `sort_values` (line 246). -/
def sortedKeysOf (subset : List (FlightRecord × String)) : List FlightKey :=
  subset.foldl (fun acc p =>
    match keyOf p.1 with
    | some k => insSorted keyLt k acc
    | none => acc) []

/-- Aggregation `first` (line 227): the cell of a (key, date) group is the
`TimeValue` of the first matching record in traversal order. -/
def cellVal (subset : List (FlightRecord × String)) (k : FlightKey)
    (d : Nat) : Option String :=
  ((subset.filter (fun p => decide (keyOf p.1 = some k ∧ p.1.Date = d))).head?).map
    (fun p => p.2)

/-- Formatting `date.strftime("%d-%m")` for a day of February. -/
def fmtDDMM (d : Nat) : String :=
  ⟨[Char.ofNat (48 + d / 10), Char.ofNat (48 + d % 10), '-', '0', '2']⟩

/-- The matrix DataFrame returned by `build_matrix_for_weekday`: date
columns in order (kept both as date objects and as the "dd-mm" labels of
lines 237-243) and one row per (Flight, Route, AD) key. -/
structure WeekdayMatrix where
  dates : List Nat
  columnLabels : List String
  rows : List (FlightKey × List (Option String))
deriving DecidableEq

/-- The function `build_matrix_for_weekday` (lines 200-248).  The early returns for an
empty `flights` or empty subset produce an empty DataFrame, which is the
same value this definition computes in those cases. -/
def build_matrix_for_weekday (flights : List FlightRecord)
    (weekday : String) : WeekdayMatrix :=
  let subset := subsetForPivot flights weekday
  let ds := sortedDatesOf subset
  let ks := sortedKeysOf subset
  { dates := ds,
    columnLabels := ds.map fmtDDMM,
    rows := ks.map (fun k => (k, ds.map (fun d => cellVal subset k d))) }

/-! ## Order facts about the embedded string comparison -/

theorem char_eq_of_toNat_eq {a b : Char} (h : a.toNat = b.toNat) : a = b :=
  Char.eq_of_val_eq (UInt32.ext h)

theorem listCharLt_irrefl : ∀ l : List Char, listCharLt l l = false := by
  intro l
  induction l with
  | nil => rfl
  | cons a as ih => simp [listCharLt, ih]

theorem listCharLt_trans : ∀ {x y z : List Char},
    listCharLt x y = true → listCharLt y z = true → listCharLt x z = true := by
  intro x
  induction x with
  | nil =>
    intro y z hxy hyz
    cases y with
    | nil => exact absurd hxy (by simp [listCharLt])
    | cons b bs =>
      cases z with
      | nil => exact absurd hyz (by simp [listCharLt])
      | cons c cs => rfl
  | cons a as ih =>
    intro y z hxy hyz
    cases y with
    | nil => exact absurd hxy (by simp [listCharLt])
    | cons b bs =>
      cases z with
      | nil => exact absurd hyz (by simp [listCharLt])
      | cons c cs =>
        simp only [listCharLt] at hxy hyz ⊢
        split at hxy
        · rename_i hab
          split at hyz
          · rename_i hbc
            rw [if_pos (Nat.lt_trans hab hbc)]
          · split at hyz
            · exact absurd hyz (by simp)
            · rename_i hbc hcb
              have hbc' : b.toNat = c.toNat :=
                Nat.le_antisymm (Nat.le_of_not_lt hcb) (Nat.le_of_not_lt hbc)
              rw [if_pos (hbc' ▸ hab)]
        · split at hxy
          · exact absurd hxy (by simp)
          · rename_i hab hba
            have hab' : a.toNat = b.toNat :=
              Nat.le_antisymm (Nat.le_of_not_lt hba) (Nat.le_of_not_lt hab)
            split at hyz
            · rename_i hbc
              rw [if_pos (hab' ▸ hbc)]
            · split at hyz
              · exact absurd hyz (by simp)
              · rename_i hbc hcb
                rw [if_neg (hab' ▸ hbc), if_neg (hab' ▸ hcb)]
                exact ih hxy hyz

theorem listCharLt_tri : ∀ x y : List Char,
    listCharLt x y = true ∨ x = y ∨ listCharLt y x = true := by
  intro x
  induction x with
  | nil =>
    intro y
    cases y with
    | nil => right; left; rfl
    | cons b bs => left; rfl
  | cons a as ih =>
    intro y
    cases y with
    | nil => right; right; rfl
    | cons b bs =>
      rcases Nat.lt_trichotomy a.toNat b.toNat with hab | hab | hab
      · left; simp [listCharLt, hab]
      · have ha : a = b := char_eq_of_toNat_eq hab
        subst ha
        rcases ih bs with h | h | h
        · left; simp [listCharLt, h]
        · right; left; rw [h]
        · right; right; simp [listCharLt, h]
      · right; right; simp [listCharLt, hab, Nat.lt_asymm hab]

theorem strLt_irrefl (s : String) : strLt s s = false := listCharLt_irrefl s.data

theorem strLt_trans {x y z : String} (h1 : strLt x y = true)
    (h2 : strLt y z = true) : strLt x z = true := listCharLt_trans h1 h2

theorem strLt_tri (x y : String) : strLt x y = true ∨ x = y ∨ strLt y x = true := by
  rcases listCharLt_tri x.data y.data with h | h | h
  · exact Or.inl h
  · refine Or.inr (Or.inl ?_)
    cases x with
    | mk dx =>
      cases y with
      | mk dy => exact congrArg String.mk h
  · exact Or.inr (Or.inr h)

theorem keyLt_irrefl (k : FlightKey) : ¬ keyLt k k := by
  rintro (h | ⟨-, h | ⟨-, h⟩⟩) <;> simp [strLt_irrefl] at h

theorem keyLt_trans : ∀ {a b c : FlightKey}, keyLt a b → keyLt b c → keyLt a c := by
  rintro ⟨a1, a2, a3⟩ ⟨b1, b2, b3⟩ ⟨c1, c2, c3⟩ hab hbc
  simp only [keyLt] at hab hbc ⊢
  rcases hab with h1 | ⟨e1, h2 | ⟨e2, h3⟩⟩ <;>
    rcases hbc with g1 | ⟨f1, g2 | ⟨f2, g3⟩⟩
  · exact Or.inl (strLt_trans h1 g1)
  · exact Or.inl (f1 ▸ h1)
  · exact Or.inl (f1 ▸ h1)
  · exact Or.inl (e1 ▸ g1)
  · exact Or.inr ⟨e1.trans f1, Or.inl (strLt_trans h2 g2)⟩
  · exact Or.inr ⟨e1.trans f1, Or.inl (f2 ▸ h2)⟩
  · exact Or.inl (e1 ▸ g1)
  · exact Or.inr ⟨e1.trans f1, Or.inl (e2 ▸ g2)⟩
  · exact Or.inr ⟨e1.trans f1, Or.inr ⟨e2.trans f2, strLt_trans h3 g3⟩⟩

theorem keyLt_tri : ∀ a b : FlightKey, keyLt a b ∨ a = b ∨ keyLt b a := by
  rintro ⟨a1, a2, a3⟩ ⟨b1, b2, b3⟩
  rcases strLt_tri a1 b1 with h1 | h1 | h1
  · exact Or.inl (Or.inl h1)
  · subst h1
    rcases strLt_tri a2 b2 with h2 | h2 | h2
    · exact Or.inl (Or.inr ⟨rfl, Or.inl h2⟩)
    · subst h2
      rcases strLt_tri a3 b3 with h3 | h3 | h3
      · exact Or.inl (Or.inr ⟨rfl, Or.inr ⟨rfl, h3⟩⟩)
      · subst h3
        exact Or.inr (Or.inl rfl)
      · exact Or.inr (Or.inr (Or.inr ⟨rfl, Or.inr ⟨rfl, h3⟩⟩))
    · exact Or.inr (Or.inr (Or.inr ⟨rfl, Or.inl h2⟩))
  · exact Or.inr (Or.inr (Or.inl h1))

/-! ## Sorted insertion facts -/

theorem mem_insSorted {α : Type} [DecidableEq α] (lt : α → α → Prop)
    [DecidableRel lt] (a x : α) :
    ∀ l : List α, x ∈ insSorted lt a l ↔ x = a ∨ x ∈ l := by
  intro l
  induction l with
  | nil => simp [insSorted]
  | cons b l ih =>
    simp only [insSorted]
    split
    · simp [List.mem_cons]
    · split
      · rename_i hne heq
        subst heq
        simp only [List.mem_cons]
        tauto
      · simp only [List.mem_cons, ih]
        tauto

theorem pairwise_insSorted {α : Type} [DecidableEq α] (lt : α → α → Prop)
    [DecidableRel lt]
    (htrans : ∀ x y z, lt x y → lt y z → lt x z)
    (htri : ∀ x y : α, lt x y ∨ x = y ∨ lt y x) (a : α) :
    ∀ l, List.Pairwise lt l → List.Pairwise lt (insSorted lt a l) := by
  intro l
  induction l with
  | nil => intro _; simp [insSorted]
  | cons b l ih =>
    intro h
    rcases List.pairwise_cons.mp h with ⟨hb, hl⟩
    simp only [insSorted]
    split
    · rename_i hab
      refine List.pairwise_cons.mpr ⟨?_, h⟩
      intro y hy
      rcases List.mem_cons.mp hy with rfl | hyl
      · exact hab
      · exact htrans a b y hab (hb y hyl)
    · split
      · exact h
      · rename_i hnab hneq
        refine List.pairwise_cons.mpr ⟨?_, ih hl⟩
        intro y hy
        rcases (mem_insSorted lt a y l).mp hy with rfl | hyl
        · rcases htri y b with h1 | h1 | h1
          · exact absurd h1 hnab
          · exact absurd h1 hneq
          · exact h1
        · exact hb y hyl

theorem pairwise_foldl {α β : Type} (lt : α → α → Prop)
    (step : List α → β → List α)
    (hstep : ∀ acc x, List.Pairwise lt acc → List.Pairwise lt (step acc x)) :
    ∀ (l : List β) (acc : List α), List.Pairwise lt acc →
      List.Pairwise lt (List.foldl step acc l) := by
  intro l
  induction l with
  | nil => intro acc h; exact h
  | cons x l ih => intro acc h; exact ih _ (hstep acc x h)

theorem mem_foldl_keep {α β : Type} (step : List α → β → List α)
    (hkeep : ∀ acc x a, a ∈ acc → a ∈ step acc x) :
    ∀ (l : List β) (acc : List α) (a : α), a ∈ acc →
      a ∈ List.foldl step acc l := by
  intro l
  induction l with
  | nil => intro acc a h; exact h
  | cons x l ih => intro acc a h; exact ih _ _ (hkeep acc x a h)

theorem mem_foldl_of_mem {α β : Type} (step : List α → β → List α)
    (hkeep : ∀ acc x a, a ∈ acc → a ∈ step acc x)
    (l : List β) (p : β) (hp : p ∈ l) (k : α)
    (hintro : ∀ acc, k ∈ step acc p) :
    ∀ acc, k ∈ List.foldl step acc l := by
  induction l with
  | nil => cases hp
  | cons q l ih =>
    intro acc
    rcases List.mem_cons.mp hp with rfl | hpl
    · exact mem_foldl_keep step hkeep l (step acc p) k (hintro acc)
    · exact ih hpl (step acc q)

/-! ## Membership characterizations of the matrix subset -/

theorem mem_matrixSubset {flights : List FlightRecord} {w : String}
    {p : FlightRecord × String} :
    p ∈ matrixSubset flights w ↔
      p.1 ∈ flights ∧ p.1.Weekday = some w ∧
        compute_time_value p.1 = some p.2 := by
  obtain ⟨r, tv⟩ := p
  simp only [matrixSubset, List.mem_filterMap, List.mem_filter,
    decide_eq_true_eq, Option.map_eq_some']
  constructor
  · rintro ⟨q, ⟨hq, hw⟩, tv2, hc, heq⟩
    cases heq
    exact ⟨hq, hw, hc⟩
  · rintro ⟨hq, hw, hc⟩
    exact ⟨r, ⟨hq, hw⟩, tv, hc, rfl⟩

theorem mem_subsetForPivot {flights : List FlightRecord} {w : String}
    {p : FlightRecord × String} :
    p ∈ subsetForPivot flights w ↔
      p.1 ∈ flights ∧ p.1.Weekday = some w ∧
        compute_time_value p.1 = some p.2 ∧ (keyOf p.1).isSome = true := by
  simp only [subsetForPivot, List.mem_filter, mem_matrixSubset]
  tauto

/-! ## Facts about the header matcher -/

theorem consumeLit_eq_append : ∀ {p cs rest : List Char},
    consumeLit p cs = some rest → cs = p ++ rest := by
  intro p
  induction p with
  | nil =>
    intro cs rest h
    simp only [consumeLit, Option.some.injEq] at h
    simp [h]
  | cons a p ih =>
    intro cs rest h
    cases cs with
    | nil => simp [consumeLit] at h
    | cons c cs =>
      simp only [consumeLit] at h
      split at h
      · rename_i hca
        subst hca
        rw [List.cons_append, ih h]
      · exact absurd h (by simp)

theorem head?_filterMap_isSome {α β : Type} (f : α → Option β) (l : List α)
    (h : ((l.filterMap f).head?).isSome = true) :
    ∃ a ∈ l, (f a).isSome = true := by
  cases hm : l.filterMap f with
  | nil => rw [hm] at h; simp at h
  | cons x xs =>
    have hx : x ∈ l.filterMap f := by
      rw [hm]; exact List.mem_cons_self x xs
    rcases List.mem_filterMap.mp hx with ⟨a, ha, hfa⟩
    exact ⟨a, ha, by rw [hfa]; rfl⟩

/-! ## Claim theorems -/

/-- Claim C1 — evaluation of the code at the failing input.  The first
cell "Sun 30 Feb 2026" matches DAY_PATTERN (group 2 reads 30), yet the
whole parse run aborts with the ValueError raised by
`datetime.date(2026, 2, 30)` at line 107: the table is NOT treated as
header-less, and the fault propagates out of the traversal.  This
contradicts the specified error-handling design, which requires an
impossible calendar date to be treated as "no header found" and never as
a fault. -/
theorem c1_invalid_date_aborts_parse :
    matchDayHeader "Sun 30 Feb 2026" = some ("Sun", 30) ∧
    parse_pdf_to_flights_df
      [⟨0, [[some "Sun 30 Feb 2026"],
            [some "Flight", some "Route", some "A/D", some "Type",
             some "ETA", some "ETD"],
            [some "AZ1", some "FCO", some "A", some "PAX",
             some "08:10", none]]⟩]
      = .error "ValueError: day is out of range for month" :=
  ⟨by decide, by decide⟩

/-- Claim C8 — counterexample.  "SUN 22 FEB 2026" and "sun 22 feb 2026"
match the day-header form up to letter case (the exact-case variant
"Sun 22 Feb 2026" is recognized), yet the detector rejects both:
DAY_PATTERN is compiled without re.IGNORECASE, so recognition is not
case-insensitive. -/
theorem c8_case_insensitivity_fails :
    matchDayHeader "Sun 22 Feb 2026" = some ("Sun", 22) ∧
    matchDayHeader "SUN 22 FEB 2026" = none ∧
    matchDayHeader "sun 22 feb 2026" = none :=
  ⟨by decide, by decide, by decide⟩

/-- Claim C8 — amended.  Day-header recognition is case-sensitive: any
recognized cell text must start with one of the exact title-case weekday
tokens, hence it contains both an uppercase and a lowercase letter; fully
upper-cased or fully lower-cased variants are never recognized. -/
theorem c8_recognized_header_is_exact_case (s : String)
    (h : (matchDayHeader s).isSome = true) :
    (∃ c ∈ s.data, c.isUpper = true) ∧ (∃ c ∈ s.data, c.isLower = true) := by
  obtain ⟨w, hw, hsome⟩ := head?_filterMap_isSome _ _ h
  have hcl : ∃ rest, consumeLit w.data s.data = some rest := by
    cases hc : consumeLit w.data s.data with
    | none => rw [hc] at hsome; simp at hsome
    | some rest => exact ⟨rest, rfl⟩
  obtain ⟨rest, hrest⟩ := hcl
  have hdata : s.data = w.data ++ rest := consumeLit_eq_append hrest
  have hcase : w.data.any Char.isUpper = true ∧ w.data.any Char.isLower = true := by
    have hall : ∀ w2 ∈ WEEKDAY_TOKENS,
        w2.data.any Char.isUpper = true ∧ w2.data.any Char.isLower = true := by
      decide
    exact hall w hw
  constructor
  · rcases List.any_eq_true.mp hcase.1 with ⟨c, hc, hcu⟩
    exact ⟨c, hdata ▸ List.mem_append_left rest hc, hcu⟩
  · rcases List.any_eq_true.mp hcase.2 with ⟨c, hc, hclow⟩
    exact ⟨c, hdata ▸ List.mem_append_left rest hc, hclow⟩

/-- Witness for the amended C8 theorem at the recognized header
"Sun 22 Feb 2026". -/
theorem c8_recognized_header_is_exact_case_witness :
    (∃ c ∈ ("Sun 22 Feb 2026" : String).data, c.isUpper = true) ∧
    (∃ c ∈ ("Sun 22 Feb 2026" : String).data, c.isLower = true) :=
  c8_recognized_header_is_exact_case "Sun 22 Feb 2026" (by decide)

/-! ## PAX filter facts -/

theorem finalizeRecords_type_pax {recs : List RawRow} {r : FlightRecord}
    (hr : r ∈ finalizeRecords recs) : r.type = some "PAX" := by
  simp only [finalizeRecords, List.mem_map, List.mem_filter,
    decide_eq_true_eq] at hr
  rcases hr with ⟨q, ⟨hq, hqt⟩, rfl⟩
  show blankToNone q.type = some "PAX"
  rw [hqt]
  rfl

theorem finalizeRecords_drop_nonpax (recs : List RawRow) :
    finalizeRecords recs =
      finalizeRecords (recs.filter
        (fun q => decide (pyStrip (pyWordUpper q.type) = "PAX"))) := by
  induction recs with
  | nil => rfl
  | cons q l ih =>
    by_cases hq : pyStrip (pyWordUpper q.type) = "PAX"
    · have hQ : (decide (pyStrip (pyWordUpper q.type) = "PAX")) = true :=
        decide_eq_true hq
      have hP : (decide ((normalizeRow q).type = "PAX")) = true := hQ
      simp only [finalizeRecords] at ih ⊢
      simp [List.filter_cons, hP, hQ, ih]
    · have hQ : (decide (pyStrip (pyWordUpper q.type) = "PAX")) = false :=
        decide_eq_false hq
      have hP : (decide ((normalizeRow q).type = "PAX")) = false := hQ
      simp only [finalizeRecords] at ih ⊢
      simp [List.filter_cons, hP, hQ, ih]

/-- Claim C2: every record of the DataFrame returned by the parser has
Type "PAX" (after upper-casing and trimming), and rows whose normalized
Type differs contribute nothing to the result: filtering them away first
leaves the result unchanged, with no error in either case. -/
theorem c2_only_pax_records (ts : List Table) (out : List FlightRecord)
    (h : parse_pdf_to_flights_df ts = .ok out) :
    (∀ r ∈ out, r.type = some "PAX") ∧
    (∀ recs : List RawRow,
      finalizeRecords recs =
        finalizeRecords (recs.filter
          (fun q => decide (pyStrip (pyWordUpper q.type) = "PAX")))) := by
  refine ⟨?_, finalizeRecords_drop_nonpax⟩
  intro r hr
  unfold parse_pdf_to_flights_df at h
  cases hrun : runTables initState [] ts with
  | error e => rw [hrun] at h; cases h
  | ok pr =>
    rw [hrun] at h
    cases h
    exact finalizeRecords_type_pax hr

/-- Witness for C2: a run containing a CARGO row and a lower-case
"pax " row keeps exactly the PAX rows. -/
theorem c2_only_pax_records_witness :
    (∀ r ∈ [(⟨2, some "Mon", some "AZ1", some "FCO", some "A", some "PAX",
              some "08:10", none⟩ : FlightRecord),
            ⟨2, some "Mon", some "DX7", some "MXP", some "P", some "PAX",
              none, some "07:30"⟩], r.type = some "PAX") ∧
    (∀ recs : List RawRow,
      finalizeRecords recs =
        finalizeRecords (recs.filter
          (fun q => decide (pyStrip (pyWordUpper q.type) = "PAX")))) :=
  c2_only_pax_records
    [⟨0, [[some "Mon 2 Feb 2026"],
          [some "Flight", some "Route", some "A/D", some "Type",
           some "ETA", some "ETD"],
          [some "AZ1", some "FCO", some "A", some "pax ", some "08:10", none],
          [some "CG9", some "LEJ", some "A", some "CARGO", some "03:00", none]]⟩,
     ⟨0, [[some "DX7", some "MXP", some "P", some "PAX", none, some "07:30"]]⟩]
    _ (by decide)

/-- Claim C9: a row is extracted iff its first cell is non-empty after
trimming; the extracted fields are exactly the first six cells consumed
positionally, and any cell index beyond the row length reads as the empty
string, so short rows never fail. -/
theorem c9_row_extraction_total (row : List (Option String)) :
    ((extractRow row).isSome = true ↔
      pyStrip ((row.head?.getD none).getD "") ≠ "") ∧
    (∀ f, extractRow row = some f →
      f = ⟨cellStr row 0, cellStr row 1, cellStr row 2, cellStr row 3,
           cellStr row 4, cellStr row 5⟩) ∧
    (∀ i, row.length ≤ i → cellStr row i = "") := by
  refine ⟨?_, ?_, ?_⟩
  · cases row with
    | nil => simp [extractRow, pyStrip, trimChars]
    | cons c0 rest =>
      cases c0 with
      | none => simp [extractRow, pyStrip, trimChars]
      | some s0 =>
        simp only [extractRow, List.head?_cons, Option.getD_some]
        by_cases h0 : s0 = ""
        · subst h0
          simp [pyStrip, trimChars]
        · rw [if_neg h0]
          by_cases h1 : pyStrip s0 = ""
          · simp [h1]
          · simp [h1]
  · intro f hf
    cases row with
    | nil => cases hf
    | cons c0 rest =>
      cases c0 with
      | none => cases hf
      | some s0 =>
        simp only [extractRow] at hf
        split at hf
        · cases hf
        · split at hf
          · cases hf
          · cases hf
            simp [cellStr]
  · intro i hi
    simp [cellStr, List.getElem?_eq_none hi]

/-- Witness for C9 at a two-cell row: the trailing four fields default to
the empty string. -/
theorem c9_row_extraction_total_witness :
    (⟨"AZ123", "FCO", "", "", "", ""⟩ : RawFields) =
      ⟨cellStr [some " AZ123 ", some "FCO"] 0,
       cellStr [some " AZ123 ", some "FCO"] 1,
       cellStr [some " AZ123 ", some "FCO"] 2,
       cellStr [some " AZ123 ", some "FCO"] 3,
       cellStr [some " AZ123 ", some "FCO"] 4,
       cellStr [some " AZ123 ", some "FCO"] 5⟩ :=
  (c9_row_extraction_total [some " AZ123 ", some "FCO"]).2.1
    ⟨"AZ123", "FCO", "", "", "", ""⟩ (by decide)

/-! ## Direction vocabulary facts -/

theorem departure_not_arrival :
    ∀ s ∈ DEPARTURE_TOKENS, s ∉ ARRIVAL_TOKENS := by decide

theorem arrival_not_departure :
    ∀ s ∈ ARRIVAL_TOKENS, s ∉ DEPARTURE_TOKENS := by decide

theorem pyOrNone_eq_some {x : Option String} {v : String}
    (h : pyOrNone x = some v) : x = some v := by
  cases x with
  | none => cases h
  | some s =>
    simp only [pyOrNone] at h
    split at h
    · cases h
    · cases h
      rfl

/-- Claim C10: a record whose direction is an arrival token but whose ETA
is absent (null or empty), or a departure token with absent ETD, gets no
time value, enters no weekday subset, and alone produces the empty
matrix — it is excluded entirely rather than shown as an empty cell. -/
theorem c10_absent_time_excluded (flights : List FlightRecord) (w : String)
    (r : FlightRecord)
    (h : (adToken r ∈ ARRIVAL_TOKENS ∧ (r.ETA = none ∨ r.ETA = some "")) ∨
         (adToken r ∈ DEPARTURE_TOKENS ∧ (r.ETD = none ∨ r.ETD = some ""))) :
    compute_time_value r = none ∧
    (∀ tv, (r, tv) ∉ matrixSubset flights w) ∧
    build_matrix_for_weekday [r] w = ⟨[], [], []⟩ := by
  have hcomp : compute_time_value r = none := by
    rcases h with ⟨hmem, habs⟩ | ⟨hmem, habs⟩
    · unfold compute_time_value
      rw [if_pos hmem]
      rcases habs with h1 | h1 <;> rw [h1] <;> rfl
    · unfold compute_time_value
      rw [if_neg (departure_not_arrival _ hmem), if_pos hmem]
      rcases habs with h1 | h1 <;> rw [h1] <;> rfl
  refine ⟨hcomp, ?_, ?_⟩
  · intro tv hmem2
    rcases mem_matrixSubset.mp hmem2 with ⟨-, -, hc⟩
    rw [hcomp] at hc
    cases hc
  · have hsub : subsetForPivot [r] w = [] := by
      cases hs : subsetForPivot [r] w with
      | nil => rfl
      | cons p ps =>
        have hp : p ∈ subsetForPivot [r] w := by
          rw [hs]; exact List.mem_cons_self _ _
        rcases mem_subsetForPivot.mp hp with ⟨hpf, -, hpc, -⟩
        have hpr : p.1 = r := by simpa using hpf
        rw [hpr, hcomp] at hpc
        cases hpc
    simp only [build_matrix_for_weekday, hsub]
    rfl

/-- Witness for C10: an arrival record with null ETA is excluded. -/
theorem c10_absent_time_excluded_witness :
    compute_time_value
      ⟨2, some "Mon", some "AZ1", some "FCO", some "A", some "PAX",
       none, some "07:00"⟩ = none ∧
    (∀ tv, ((⟨2, some "Mon", some "AZ1", some "FCO", some "A", some "PAX",
       none, some "07:00"⟩ : FlightRecord), tv) ∉
        matrixSubset
          [⟨2, some "Mon", some "AZ1", some "FCO", some "A", some "PAX",
            none, some "07:00"⟩] "Mon") ∧
    build_matrix_for_weekday
      [⟨2, some "Mon", some "AZ1", some "FCO", some "A", some "PAX",
        none, some "07:00"⟩] "Mon" = ⟨[], [], []⟩ :=
  c10_absent_time_excluded _ "Mon" _ (by decide)

/-! ## Matrix ordering facts -/

theorem sortedDatesOf_pairwise (subset : List (FlightRecord × String)) :
    List.Pairwise (· < ·) (sortedDatesOf subset) := by
  apply pairwise_foldl (· < ·)
    (fun acc p => insSorted (· < ·) p.1.Date acc)
    (fun acc p hacc =>
      pairwise_insSorted (· < ·) (fun _ _ _ => Nat.lt_trans)
        Nat.lt_trichotomy p.1.Date acc hacc)
    subset [] List.Pairwise.nil

theorem sortedKeysOf_pairwise (subset : List (FlightRecord × String)) :
    List.Pairwise keyLt (sortedKeysOf subset) := by
  apply pairwise_foldl keyLt
  · intro acc p hacc
    cases keyOf p.1 with
    | none => exact hacc
    | some k =>
      exact pairwise_insSorted keyLt (fun _ _ _ => keyLt_trans) keyLt_tri
        k acc hacc
  · exact List.Pairwise.nil

theorem build_rows_map_fst (flights : List FlightRecord) (w : String) :
    (build_matrix_for_weekday flights w).rows.map Prod.fst =
      sortedKeysOf (subsetForPivot flights w) := by
  simp only [build_matrix_for_weekday, List.map_map]
  exact List.map_id _

theorem build_dates_eq (flights : List FlightRecord) (w : String) :
    (build_matrix_for_weekday flights w).dates =
      sortedDatesOf (subsetForPivot flights w) := rfl

/-- Claim C6: in every matrix the date columns are strictly increasing,
the rows are strictly sorted in ascending lexicographic (Flight, Route,
Direction) order, and no two rows share a key. -/
theorem c6_matrix_ordering (flights : List FlightRecord) (weekday : String) :
    List.Pairwise (· < ·) (build_matrix_for_weekday flights weekday).dates ∧
    List.Pairwise keyLt
      ((build_matrix_for_weekday flights weekday).rows.map Prod.fst) ∧
    ((build_matrix_for_weekday flights weekday).rows.map Prod.fst).Nodup := by
  have hk : List.Pairwise keyLt
      ((build_matrix_for_weekday flights weekday).rows.map Prod.fst) := by
    rw [build_rows_map_fst]
    exact sortedKeysOf_pairwise _
  refine ⟨?_, hk, ?_⟩
  · rw [build_dates_eq]
    exact sortedDatesOf_pairwise _
  · exact hk.imp (fun {a b} hlt => by
      intro heq
      subst heq
      exact keyLt_irrefl a hlt)

theorem cellVal_from_subset {subset : List (FlightRecord × String)}
    {k : FlightKey} {d : Nat} {v : String}
    (h : cellVal subset k d = some v) :
    ∃ p ∈ subset, keyOf p.1 = some k ∧ p.1.Date = d ∧ p.2 = v := by
  unfold cellVal at h
  cases hf : subset.filter
      (fun p => decide (keyOf p.1 = some k ∧ p.1.Date = d)) with
  | nil => rw [hf] at h; cases h
  | cons p ps =>
    rw [hf] at h
    simp only [List.head?_cons, Option.map_some'] at h
    cases h
    have hpf : p ∈ subset.filter
        (fun p => decide (keyOf p.1 = some k ∧ p.1.Date = d)) := by
      rw [hf]
      exact List.mem_cons_self _ _
    have hps : p ∈ subset := (List.mem_filter.mp hpf).1
    have hq : decide (keyOf p.1 = some k ∧ p.1.Date = d) = true :=
      (List.mem_filter.mp hpf).2
    rw [decide_eq_true_eq] at hq
    exact ⟨p, hps, hq.1, hq.2, rfl⟩

/-- Claim C3: a record populating the weekday subset carries its ETA as
cell value when its direction token is an arrival token and its ETD when
it is a departure token, and only records with a recognized direction
token populate cells; a record with an unrecognized direction token stays
in the flat set but never enters any weekday subset. -/
theorem c3_direction_selects_time (flights : List FlightRecord) (w : String)
    (r : FlightRecord) (tv : String) :
    ((r, tv) ∈ matrixSubset flights w →
      (adToken r ∈ ARRIVAL_TOKENS → r.ETA = some tv) ∧
      (adToken r ∈ DEPARTURE_TOKENS → r.ETD = some tv) ∧
      (adToken r ∈ ARRIVAL_TOKENS ∨ adToken r ∈ DEPARTURE_TOKENS)) ∧
    (r ∈ flights → adToken r ∉ ARRIVAL_TOKENS →
      adToken r ∉ DEPARTURE_TOKENS →
      ∀ tv2 : String, (r, tv2) ∉ matrixSubset flights w) ∧
    (∀ (k : FlightKey) (d : Nat) (v : String),
      cellVal (subsetForPivot flights w) k d = some v →
      ∃ p ∈ matrixSubset flights w,
        keyOf p.1 = some k ∧ p.1.Date = d ∧ p.2 = v) := by
  refine ⟨?_, ?_, ?_⟩
  · intro hmem
    rcases mem_matrixSubset.mp hmem with ⟨-, -, hc⟩
    by_cases harr : adToken r ∈ ARRIVAL_TOKENS
    · unfold compute_time_value at hc
      rw [if_pos harr] at hc
      exact ⟨fun _ => pyOrNone_eq_some hc,
        fun hdep => absurd harr (by
          intro h2
          exact departure_not_arrival _ hdep h2),
        Or.inl harr⟩
    · by_cases hdep : adToken r ∈ DEPARTURE_TOKENS
      · unfold compute_time_value at hc
        rw [if_neg harr, if_pos hdep] at hc
        exact ⟨fun h2 => absurd h2 harr,
          fun _ => pyOrNone_eq_some hc, Or.inr hdep⟩
      · unfold compute_time_value at hc
        rw [if_neg harr, if_neg hdep] at hc
        cases hc
  · intro _ harr hdep tv2 hmem2
    rcases mem_matrixSubset.mp hmem2 with ⟨-, -, hc⟩
    unfold compute_time_value at hc
    rw [if_neg harr, if_neg hdep] at hc
    cases hc
  · intro k d v h
    obtain ⟨p, hp, h1, h2, h3⟩ := cellVal_from_subset h
    exact ⟨p, (List.mem_filter.mp hp).1, h1, h2, h3⟩

/-- Witness for C3: an arrival record populates with its ETA; a record
with the unrecognized direction token "X" stays out of the subset. -/
theorem c3_direction_selects_time_witness :
    (⟨2, some "Mon", some "AZ1", some "FCO", some "A", some "PAX",
      some "08:10", none⟩ : FlightRecord).ETA = some "08:10" ∧
    ((⟨2, some "Mon", some "QQ5", some "BGY", some "X", some "PAX",
       some "06:00", some "06:30"⟩ : FlightRecord), "06:00") ∉
      matrixSubset
        [⟨2, some "Mon", some "AZ1", some "FCO", some "A", some "PAX",
          some "08:10", none⟩,
         ⟨2, some "Mon", some "QQ5", some "BGY", some "X", some "PAX",
          some "06:00", some "06:30"⟩] "Mon" := by
  constructor
  · exact ((c3_direction_selects_time
      [⟨2, some "Mon", some "AZ1", some "FCO", some "A", some "PAX",
        some "08:10", none⟩,
       ⟨2, some "Mon", some "QQ5", some "BGY", some "X", some "PAX",
        some "06:00", some "06:30"⟩] "Mon"
      ⟨2, some "Mon", some "AZ1", some "FCO", some "A", some "PAX",
        some "08:10", none⟩ "08:10").1 (by decide)).1 (by decide)
  · exact (c3_direction_selects_time
      [⟨2, some "Mon", some "AZ1", some "FCO", some "A", some "PAX",
        some "08:10", none⟩,
       ⟨2, some "Mon", some "QQ5", some "BGY", some "X", some "PAX",
        some "06:00", some "06:30"⟩] "Mon"
      ⟨2, some "Mon", some "QQ5", some "BGY", some "X", some "PAX",
        some "06:00", some "06:30"⟩ "06:00").2.1
      (by decide) (by decide) (by decide) "06:00"

/-! ## First-value-wins facts -/

theorem subsetForPivot_append (xs ys : List FlightRecord) (w : String) :
    subsetForPivot (xs ++ ys) w =
      subsetForPivot xs w ++ subsetForPivot ys w := by
  simp [subsetForPivot, matrixSubset, List.filter_append,
    List.filterMap_append]

theorem subsetForPivot_cons_of_match {r1 : FlightRecord} {w tv1 : String}
    (l2 : List FlightRecord)
    (hw : r1.Weekday = some w) (htv : compute_time_value r1 = some tv1)
    (hks : (keyOf r1).isSome = true) :
    subsetForPivot (r1 :: l2) w = (r1, tv1) :: subsetForPivot l2 w := by
  simp [subsetForPivot, matrixSubset, List.filter_cons, List.filterMap_cons,
    hw, htv, hks]

/-- Claim C5: when several records share the same (Flight, Route,
Direction) key and date inside one weekday, the matrix cell holds the
time value of the first such record in traversal order — the collision
produces a value, not an error, and the key and date are present in the
matrix. -/
theorem c5_first_value_wins (w : String) (k : FlightKey) (d : Nat)
    (l1 l2 : List FlightRecord) (r1 : FlightRecord) (tv1 : String)
    (hw : r1.Weekday = some w) (hk : keyOf r1 = some k) (hd : r1.Date = d)
    (htv : compute_time_value r1 = some tv1)
    (hfirst : ∀ r ∈ l1, r.Weekday = some w → keyOf r = some k →
      r.Date = d → compute_time_value r = none) :
    cellVal (subsetForPivot (l1 ++ r1 :: l2) w) k d = some tv1 ∧
    k ∈ (build_matrix_for_weekday (l1 ++ r1 :: l2) w).rows.map Prod.fst ∧
    d ∈ (build_matrix_for_weekday (l1 ++ r1 :: l2) w).dates := by
  have hks : (keyOf r1).isSome = true := by rw [hk]; rfl
  have happ : subsetForPivot (l1 ++ r1 :: l2) w
      = subsetForPivot l1 w ++ ((r1, tv1) :: subsetForPivot l2 w) := by
    rw [subsetForPivot_append, subsetForPivot_cons_of_match l2 hw htv hks]
  have hnil : (subsetForPivot l1 w).filter
      (fun p => decide (keyOf p.1 = some k ∧ p.1.Date = d)) = [] := by
    apply List.filter_eq_nil_iff.mpr
    intro p hp hq
    rw [decide_eq_true_eq] at hq
    rcases mem_subsetForPivot.mp hp with ⟨hpf, hpw, hpc, -⟩
    have hnone := hfirst p.1 hpf hpw hq.1 hq.2
    rw [hnone] at hpc
    cases hpc
  have hmem1 : (r1, tv1) ∈ subsetForPivot (l1 ++ r1 :: l2) w := by
    rw [happ]
    exact List.mem_append_right _ (List.mem_cons_self _ _)
  refine ⟨?_, ?_, ?_⟩
  · unfold cellVal
    rw [happ, List.filter_append, hnil, List.nil_append, List.filter_cons]
    have hq1 : decide (keyOf (r1, tv1).1 = some k ∧ (r1, tv1).1.Date = d)
        = true := by
      rw [decide_eq_true_eq]
      exact ⟨hk, hd⟩
    rw [hq1]
    simp
  · rw [build_rows_map_fst]
    have hkeep : ∀ (acc : List FlightKey) (x : FlightRecord × String)
        (a : FlightKey), a ∈ acc →
        a ∈ (match keyOf x.1 with
             | some k2 => insSorted keyLt k2 acc
             | none => acc) := by
      intro acc x a ha
      cases hx : keyOf x.1 with
      | none => simpa using ha
      | some k2 =>
        simp only []
        exact (mem_insSorted keyLt k2 a acc).mpr (Or.inr ha)
    have hintro : ∀ acc : List FlightKey,
        k ∈ (match keyOf (r1, tv1).1 with
             | some k2 => insSorted keyLt k2 acc
             | none => acc) := by
      intro acc
      simp only [hk]
      exact (mem_insSorted keyLt k k acc).mpr (Or.inl rfl)
    exact mem_foldl_of_mem _ hkeep _ (r1, tv1) hmem1 k hintro []
  · rw [build_dates_eq]
    have hkeep : ∀ (acc : List Nat) (x : FlightRecord × String) (a : Nat),
        a ∈ acc → a ∈ insSorted (· < ·) x.1.Date acc := by
      intro acc x a ha
      exact (mem_insSorted (· < ·) x.1.Date a acc).mpr (Or.inr ha)
    have hintro : ∀ acc : List Nat,
        d ∈ insSorted (· < ·) (r1, tv1).1.Date acc := by
      intro acc
      show d ∈ insSorted (· < ·) r1.Date acc
      rw [hd]
      exact (mem_insSorted (· < ·) d d acc).mpr (Or.inl rfl)
    exact mem_foldl_of_mem _ hkeep _ (r1, tv1) hmem1 d hintro []

/-- Witness for C5: two Monday records with the same key and date but
times 08:10 and 09:59; the cell takes the first. -/
theorem c5_first_value_wins_witness :
    cellVal (subsetForPivot
      [⟨2, some "Mon", some "AZ1", some "FCO", some "A", some "PAX",
        some "08:10", none⟩,
       ⟨2, some "Mon", some "AZ1", some "FCO", some "A", some "PAX",
        some "09:59", none⟩] "Mon") ("AZ1", "FCO", "A") 2 = some "08:10" ∧
    ("AZ1", "FCO", "A") ∈ (build_matrix_for_weekday
      [⟨2, some "Mon", some "AZ1", some "FCO", some "A", some "PAX",
        some "08:10", none⟩,
       ⟨2, some "Mon", some "AZ1", some "FCO", some "A", some "PAX",
        some "09:59", none⟩] "Mon").rows.map Prod.fst ∧
    2 ∈ (build_matrix_for_weekday
      [⟨2, some "Mon", some "AZ1", some "FCO", some "A", some "PAX",
        some "08:10", none⟩,
       ⟨2, some "Mon", some "AZ1", some "FCO", some "A", some "PAX",
        some "09:59", none⟩] "Mon").dates :=
  c5_first_value_wins "Mon" ("AZ1", "FCO", "A") 2 []
    [⟨2, some "Mon", some "AZ1", some "FCO", some "A", some "PAX",
      some "09:59", none⟩]
    ⟨2, some "Mon", some "AZ1", some "FCO", some "A", some "PAX",
      some "08:10", none⟩ "08:10"
    (by decide) (by decide) (by decide) (by decide)
    (fun r hr => absurd hr (List.not_mem_nil r))

/-! ## Traversal state facts -/

theorem extractRows_fields {rows : List (List (Option String))} {d : Nat}
    {w : String} {r : RawRow} (hr : r ∈ extractRows rows d w) :
    r.Date = d ∧ r.Weekday = w := by
  simp only [extractRows, List.mem_filterMap, Option.map_eq_some'] at hr
  rcases hr with ⟨row, hrow, f, hf, rfl⟩
  exact ⟨rfl, rfl⟩

theorem stepTable_state_mono {st : ParseState} {recs : List RawRow}
    {t : Table} {st' : ParseState} {recs' : List RawRow}
    (h : stepTable st recs t = .ok (st', recs')) (c : Fin 7) :
    ((st.currentDateByCol c).isSome = true →
      (st'.currentDateByCol c).isSome = true) ∧
    ((st.currentWeekdayByCol c).isSome = true →
      (st'.currentWeekdayByCol c).isSome = true) := by
  unfold stepTable at h
  cases he : t.rows.isEmpty with
  | true =>
    rw [he] at h
    simp only [if_true] at h
    cases h
    exact ⟨id, id⟩
  | false =>
    rw [he] at h
    simp only [Bool.false_eq_true, if_false] at h
    cases hm : matchDayHeader (firstCellOf t) with
    | none =>
      simp only [hm] at h
      split at h <;> (cases h; exact ⟨id, id⟩)
    | some val =>
      obtain ⟨weekday, dayNum⟩ := val
      simp only [hm] at h
      cases hmk : mkDate2026Feb dayNum with
      | error e =>
        simp only [hmk] at h
        cases h
      | ok curDate =>
        simp only [hmk] at h
        cases h
        constructor
        · intro hs
          show (updCol st.currentDateByCol t.col (some curDate) c).isSome
            = true
          unfold updCol
          by_cases hc : c = t.col
          · rw [if_pos hc]
            rfl
          · rw [if_neg hc]
            exact hs
        · intro hs
          show (updCol st.currentWeekdayByCol t.col (some weekday) c).isSome
            = true
          unfold updCol
          by_cases hc : c = t.col
          · rw [if_pos hc]
            rfl
          · rw [if_neg hc]
            exact hs

theorem runTables_state_mono : ∀ (ts : List Table) (st0 st1 : ParseState)
    (recs0 recs1 : List RawRow),
    runTables st0 recs0 ts = .ok (st1, recs1) → ∀ c : Fin 7,
    ((st0.currentDateByCol c).isSome = true →
      (st1.currentDateByCol c).isSome = true) ∧
    ((st0.currentWeekdayByCol c).isSome = true →
      (st1.currentWeekdayByCol c).isSome = true) := by
  intro ts
  induction ts with
  | nil =>
    intro st0 st1 recs0 recs1 h c
    cases h
    exact ⟨id, id⟩
  | cons t ts ih =>
    intro st0 st1 recs0 recs1 h c
    simp only [runTables] at h
    cases hstep : stepTable st0 recs0 t with
    | error e => rw [hstep] at h; cases h
    | ok pr =>
      obtain ⟨stm, recsm⟩ := pr
      rw [hstep] at h
      have h1 := stepTable_state_mono hstep c
      have h2 := ih stm st1 recsm recs1 h c
      exact ⟨fun hs => h2.1 (h1.1 hs), fun hs => h2.2 (h1.2 hs)⟩

/-- Claim C4: a table without a recognized day header leaves every slot
binding untouched; it contributes nothing when its slot is unbound and
contributes its data rows, attributed to the slot's bound date and
weekday, when the slot is bound.  Over a whole traversal a bound slot
never reverts to unbound. -/
theorem c4_continuation_binding (st : ParseState) (recs : List RawRow)
    (t : Table) (hnh : matchDayHeader (firstCellOf t) = none) :
    stepTable st recs t = .ok (st, recs ++ contRows st t) ∧
    ((st.currentDateByCol t.col = none ∨
      st.currentWeekdayByCol t.col = none) → contRows st t = []) ∧
    (∀ d w, st.currentDateByCol t.col = some d →
      st.currentWeekdayByCol t.col = some w →
      ∀ r ∈ contRows st t, r.Date = d ∧ r.Weekday = w) ∧
    (∀ (ts : List Table) (st0 st1 : ParseState)
      (recs0 recs1 : List RawRow),
      runTables st0 recs0 ts = .ok (st1, recs1) → ∀ c : Fin 7,
        ((st0.currentDateByCol c).isSome = true →
          (st1.currentDateByCol c).isSome = true) ∧
        ((st0.currentWeekdayByCol c).isSome = true →
          (st1.currentWeekdayByCol c).isSome = true)) := by
  refine ⟨?_, ?_, ?_, runTables_state_mono⟩
  · cases he : t.rows.isEmpty with
    | true => simp [stepTable, contRows, he]
    | false =>
      simp only [stepTable, contRows, he, Bool.false_eq_true, if_false, hnh]
      cases hdc : st.currentDateByCol t.col with
      | none => simp
      | some d0 =>
        cases hwc : st.currentWeekdayByCol t.col with
        | none => simp
        | some w0 =>
          unfold emitRows
          rw [hdc, hwc]
  · intro hun
    cases he : t.rows.isEmpty with
    | true => simp [contRows, he]
    | false =>
      rcases hun with h1 | h1
      · simp [contRows, he, h1]
      · cases hdc : st.currentDateByCol t.col with
        | none => simp [contRows, he, hdc]
        | some d0 => simp [contRows, he, hdc, h1]
  · intro d w hdc hwc r hr
    cases he : t.rows.isEmpty with
    | true => simp [contRows, he] at hr
    | false =>
      simp only [contRows, he, Bool.false_eq_true, if_false, hdc, hwc] at hr
      exact extractRows_fields hr

/-- Witness for C4 at a bound slot 0 and a header-less one-row table. -/
theorem c4_continuation_binding_witness :
    stepTable
      ⟨fun c => if c = 0 then some 2 else none,
       fun c => if c = 0 then some "Mon" else none⟩ []
      ⟨0, [[some "AZ1", some "FCO", some "A", some "PAX",
            some "08:10", none]]⟩
      = .ok (⟨fun c => if c = 0 then some 2 else none,
              fun c => if c = 0 then some "Mon" else none⟩,
             [] ++ contRows
               ⟨fun c => if c = 0 then some 2 else none,
                fun c => if c = 0 then some "Mon" else none⟩
               ⟨0, [[some "AZ1", some "FCO", some "A", some "PAX",
                     some "08:10", none]]⟩) ∧
    ((ParseState.currentDateByCol
        ⟨fun c => if c = 0 then some 2 else none,
         fun c => if c = 0 then some "Mon" else none⟩ 0 = none ∨
      ParseState.currentWeekdayByCol
        ⟨fun c => if c = 0 then some 2 else none,
         fun c => if c = 0 then some "Mon" else none⟩ 0 = none) →
      contRows
        ⟨fun c => if c = 0 then some 2 else none,
         fun c => if c = 0 then some "Mon" else none⟩
        ⟨0, [[some "AZ1", some "FCO", some "A", some "PAX",
              some "08:10", none]]⟩ = []) ∧
    (∀ d w, ParseState.currentDateByCol
        ⟨fun c => if c = 0 then some 2 else none,
         fun c => if c = 0 then some "Mon" else none⟩ 0 = some d →
      ParseState.currentWeekdayByCol
        ⟨fun c => if c = 0 then some 2 else none,
         fun c => if c = 0 then some "Mon" else none⟩ 0 = some w →
      ∀ r ∈ contRows
        ⟨fun c => if c = 0 then some 2 else none,
         fun c => if c = 0 then some "Mon" else none⟩
        ⟨0, [[some "AZ1", some "FCO", some "A", some "PAX",
              some "08:10", none]]⟩, r.Date = d ∧ r.Weekday = w) ∧
    (∀ (ts : List Table) (st0 st1 : ParseState)
      (recs0 recs1 : List RawRow),
      runTables st0 recs0 ts = .ok (st1, recs1) → ∀ c : Fin 7,
        ((st0.currentDateByCol c).isSome = true →
          (st1.currentDateByCol c).isSome = true) ∧
        ((st0.currentWeekdayByCol c).isSome = true →
          (st1.currentWeekdayByCol c).isSome = true)) :=
  c4_continuation_binding
    ⟨fun c => if c = 0 then some 2 else none,
     fun c => if c = 0 then some "Mon" else none⟩ []
    ⟨0, [[some "AZ1", some "FCO", some "A", some "PAX",
          some "08:10", none]]⟩ (by decide)

/-- Claim C7: in the structured row-extraction strategy the data rows of
a processed table start at index 2 when its first cell is a recognized
day header (row 0 = header, row 1 = column titles), at index 1 when it is
a header-less table in a bound slot whose first cell case-insensitively
equals "Flight" (repeated title row), and at index 0 for any other
header-less table in a bound slot. -/
theorem c7_data_start_index (st : ParseState) (recs : List RawRow)
    (t : Table) :
    (∀ weekday dayNum curDate,
      matchDayHeader (firstCellOf t) = some (weekday, dayNum) →
      t.rows.isEmpty = false →
      mkDate2026Feb dayNum = .ok curDate →
      stepTable st recs t = .ok
        (⟨updCol st.currentDateByCol t.col (some curDate),
          updCol st.currentWeekdayByCol t.col (some weekday)⟩,
         recs ++ extractRows (t.rows.drop 2) curDate weekday)) ∧
    (∀ curDate weekday,
      matchDayHeader (firstCellOf t) = none →
      t.rows.isEmpty = false →
      st.currentDateByCol t.col = some curDate →
      st.currentWeekdayByCol t.col = some weekday →
      pyWordLower (firstCellOf t) = "flight" →
      stepTable st recs t = .ok
        (st, recs ++ extractRows (t.rows.drop 1) curDate weekday)) ∧
    (∀ curDate weekday,
      matchDayHeader (firstCellOf t) = none →
      t.rows.isEmpty = false →
      st.currentDateByCol t.col = some curDate →
      st.currentWeekdayByCol t.col = some weekday →
      pyWordLower (firstCellOf t) ≠ "flight" →
      stepTable st recs t = .ok
        (st, recs ++ extractRows (t.rows.drop 0) curDate weekday)) := by
  refine ⟨?_, ?_, ?_⟩
  · intro weekday dayNum curDate hm he hmk
    simp only [stepTable, he, Bool.false_eq_true, if_false, hm, hmk]
    unfold emitRows
    simp [updCol]
  · intro curDate weekday hm he hdc hwc hfl
    simp only [stepTable, he, Bool.false_eq_true, if_false, hm, hdc, hwc]
    rw [if_pos hfl]
    unfold emitRows
    rw [hdc, hwc]
  · intro curDate weekday hm he hdc hwc hfl
    simp only [stepTable, he, Bool.false_eq_true, if_false, hm, hdc, hwc]
    rw [if_neg hfl]
    unfold emitRows
    rw [hdc, hwc]

/-- Witness for C7: a fresh header table starts its data at row 2, and a
header-less continuation whose first cell is "Flight" starts at row 1. -/
theorem c7_data_start_index_witness :
    stepTable initState []
      ⟨0, [[some "Mon 2 Feb 2026"],
           [some "Flight", some "Route", some "A/D", some "Type",
            some "ETA", some "ETD"],
           [some "AZ1", some "FCO", some "A", some "PAX",
            some "08:10", none]]⟩
      = .ok
        (⟨updCol initState.currentDateByCol 0 (some 2),
          updCol initState.currentWeekdayByCol 0 (some "Mon")⟩,
         [] ++ extractRows
           (([[some "Mon 2 Feb 2026"],
              [some "Flight", some "Route", some "A/D", some "Type",
               some "ETA", some "ETD"],
              [some "AZ1", some "FCO", some "A", some "PAX",
               some "08:10", none]] :
             List (List (Option String))).drop 2) 2 "Mon") ∧
    stepTable
      ⟨fun c => if c = 0 then some 2 else none,
       fun c => if c = 0 then some "Mon" else none⟩ []
      ⟨0, [[some "Flight", some "Route", some "A/D", some "Type",
            some "ETA", some "ETD"],
           [some "DX7", some "MXP", some "P", some "PAX",
            none, some "07:30"]]⟩
      = .ok
        (⟨fun c => if c = 0 then some 2 else none,
          fun c => if c = 0 then some "Mon" else none⟩,
         [] ++ extractRows
           (([[some "Flight", some "Route", some "A/D", some "Type",
               some "ETA", some "ETD"],
              [some "DX7", some "MXP", some "P", some "PAX",
               none, some "07:30"]] :
             List (List (Option String))).drop 1) 2 "Mon") :=
  ⟨(c7_data_start_index initState []
      ⟨0, [[some "Mon 2 Feb 2026"],
           [some "Flight", some "Route", some "A/D", some "Type",
            some "ETA", some "ETD"],
           [some "AZ1", some "FCO", some "A", some "PAX",
            some "08:10", none]]⟩).1
    "Mon" 2 2 (by decide) (by decide) (by decide),
   ((c7_data_start_index
      ⟨fun c => if c = 0 then some 2 else none,
       fun c => if c = 0 then some "Mon" else none⟩ []
      ⟨0, [[some "Flight", some "Route", some "A/D", some "Type",
            some "ETA", some "ETD"],
           [some "DX7", some "MXP", some "P", some "PAX",
            none, some "07:30"]]⟩).2.1
    2 "Mon" (by decide) (by decide) (by decide) (by decide) (by decide))⟩

end Aeroporto
